import Mathlib

/-!
Verification of the token-normalization and HTTP-retry logic of
`designupload.py` (a Printify auto-uploader script).

Python strings are modelled as `List Char`; the `str.strip` family as
dropWhile from both ends; `re.sub` with the whitespace class as a filter
removing every whitespace character; `requests` responses as explicit
status/body records; the Streamlit top-level script as a pure function
from a mocked HTTP environment and the user's UI inputs to a halt state
plus the list of HTTP requests performed.
-/

namespace DesignUpload

/-- Double-quote character, written via its code point. -/
def dquote : Char := Char.ofNat 34

/-- Single-quote character, written via its code point. -/
def squote : Char := Char.ofNat 39

/-- Horizontal ellipsis (U+2026), used by `mask_token`. -/
def hellip : Char := Char.ofNat 0x2026

/-- The whitespace characters recognised by Python's `str.strip()` and by
the regex whitespace class used in the `re.sub` call (both use the
Unicode whitespace set): tab, LF, VT, FF, CR, FS..US, space, NEL, NBSP,
Ogham space, the U+2000..U+200A spaces, LS, PS, NNBSP, MMSP, ideographic
space. -/
def pyWhitespaceChars : List Char :=
  [Char.ofNat 9, Char.ofNat 10, Char.ofNat 11, Char.ofNat 12, Char.ofNat 13,
   Char.ofNat 28, Char.ofNat 29, Char.ofNat 30, Char.ofNat 31, Char.ofNat 32,
   Char.ofNat 0x85, Char.ofNat 0xa0, Char.ofNat 0x1680,
   Char.ofNat 0x2000, Char.ofNat 0x2001, Char.ofNat 0x2002, Char.ofNat 0x2003,
   Char.ofNat 0x2004, Char.ofNat 0x2005, Char.ofNat 0x2006, Char.ofNat 0x2007,
   Char.ofNat 0x2008, Char.ofNat 0x2009, Char.ofNat 0x200a,
   Char.ofNat 0x2028, Char.ofNat 0x2029, Char.ofNat 0x202f,
   Char.ofNat 0x205f, Char.ofNat 0x3000]

def pyIsSpace (c : Char) : Bool := pyWhitespaceChars.contains c

/-- The four zero-width characters removed by the `ZERO_WIDTH` loop:
U+200B, U+200C, U+200D, U+FEFF. -/
def zeroWidthChars : List Char :=
  [Char.ofNat 0x200b, Char.ofNat 0x200c, Char.ofNat 0x200d, Char.ofNat 0xfeff]

def isZeroWidth (c : Char) : Bool := zeroWidthChars.contains c

/-- Python `str.lower`, character-wise (ASCII range; the `bearer` check
only ever compares against ASCII letters). -/
def pyLower (c : Char) : Char :=
  if 65 ≤ c.toNat ∧ c.toNat ≤ 90 then Char.ofNat (c.toNat + 32) else c

/-- Python `s.lstrip(chars)`: drop leading characters satisfying `p`. -/
def pyLstrip (p : Char → Bool) (l : List Char) : List Char := l.dropWhile p

/-- Python `s.rstrip(chars)`: drop trailing characters satisfying `p`. -/
def pyRstrip (p : Char → Bool) (l : List Char) : List Char :=
  (l.reverse.dropWhile p).reverse

/-- Python `s.strip(chars)`: drop leading and trailing characters
satisfying `p`. -/
def pyStripWith (p : Char → Bool) (l : List Char) : List Char :=
  pyRstrip p (pyLstrip p l)

/-- Python `s.strip()` with no argument (whitespace). -/
def pyStrip (l : List Char) : List Char := pyStripWith pyIsSpace l

/-- Python `s.strip(q)` for a single character `q`: removes ALL leading
and trailing occurrences of `q`, however many. -/
def stripChar (q : Char) (l : List Char) : List Char :=
  pyStripWith (fun c => c == q) l

/-- The lowered text that `startswith` compares against in the source:
the word bearer followed by one space. -/
def bearerLower : List Char := "bearer ".toList

/-- The function `clean_token` from the source, line by line: empty input
returns empty; strip surrounding whitespace; if the lowered text starts
with the bearer word plus a space, drop those seven characters; strip
whitespace again, then ALL leading/trailing double quotes, then ALL
leading/trailing single quotes; remove every whitespace character
(the `re.sub` call); remove the four zero-width characters. `startswith`
is modelled as equality of the first seven lowered characters. -/
def clean_token (raw : List Char) : List Char :=
  if raw = [] then []
  else
    let t1 := pyStrip raw
    let t2 := if (t1.map pyLower).take 7 = bearerLower then t1.drop 7 else t1
    let t3 := stripChar squote (stripChar dquote (pyStrip t2))
    let t4 := t3.filter (fun c => !pyIsSpace c)
    t4.filter (fun c => !isZeroWidth c)

/-- The length marker appended by `mask_token`: the literal
text " (len=", then the decimal length, then a closing parenthesis. -/
def lenAnn (n : Nat) : List Char := " (len=".toList ++ (Nat.repr n).toList ++ [')']

/-- The function `mask_token` from the source: empty input returns empty;
a token longer than 12 characters shows its first 6 and last 6 around an
ellipsis; otherwise its first 2 and last 2; both append the length
marker. Python's clamping slice of the last k characters is
`drop (length - k)` with truncated subtraction. -/
def mask_token (t : List Char) : List Char :=
  if t = [] then []
  else if 12 < t.length then
    t.take 6 ++ hellip :: (t.drop (t.length - 6) ++ lenAnn t.length)
  else
    t.take 2 ++ hellip :: (t.drop (t.length - 2) ++ lenAnn t.length)

/-! ## The resilient HTTP caller

`api_get` and `api_post` share one control flow:

    for i in range(retries):
        r = request(...)
        if r.status_code == 429 and i < retries - 1:
            time.sleep(backoff * (i + 1)); continue
        if r.status_code >= 400:
            st.error(...)
            r.raise_for_status()
        return r

A mocked responder maps the attempt index to the response received.
`raise_for_status` (from `requests`) raises exactly for statuses in
[400, 600); other statuses fall through and the response is returned.
If `retries` is 0 the loop body never runs and Python returns `None`. -/

/-- One HTTP response: status code and body. -/
structure Response where
  status : Nat
  body : String
deriving DecidableEq

/-- What one call to `api_get`/`api_post` does in the end: return a
response, raise an `HTTPError` (status and body), or fall off the loop
and return `None` (only possible when `retries = 0`). -/
inductive Outcome where
  | ok (r : Response)
  | raised (status : Nat) (body : String)
  | fellThrough
deriving DecidableEq

/-- Observable behaviour of one call: its outcome, how many HTTP requests
were performed, and the sleep durations in order. -/
structure CallTrace where
  outcome : Outcome
  attempts : Nat
  sleeps : List ℚ
deriving DecidableEq

/-- The retry loop, by remaining iterations. `i` is the Python loop
index; `fuel` is the number of iterations left (`retries - i`). -/
def apiLoop (responder : Nat → Response) (retries : Nat) (backoff : ℚ) :
    Nat → Nat → CallTrace
  | _, 0 => { outcome := .fellThrough, attempts := 0, sleeps := [] }
  | i, fuel + 1 =>
    let r := responder i
    if r.status = 429 ∧ i < retries - 1 then
      let rest := apiLoop responder retries backoff (i + 1) fuel
      { outcome := rest.outcome, attempts := rest.attempts + 1,
        sleeps := backoff * ((i : ℚ) + 1) :: rest.sleeps }
    else if 400 ≤ r.status ∧ r.status < 600 then
      { outcome := .raised r.status r.body, attempts := 1, sleeps := [] }
    else
      { outcome := .ok r, attempts := 1, sleeps := [] }

/-- `api_get(path, params=None, retries=2, backoff=1.25, timeout=30)`:
the defaults from the source. The URL, params and timeout do not affect
the control flow and are carried outside this definition. -/
def api_get (responder : Nat → Response) (retries : Nat := 2)
    (backoff : ℚ := 5 / 4) : CallTrace :=
  apiLoop responder retries backoff 0 retries

/-- `api_post(path, json=None, retries=2, backoff=1.25, timeout=30)`:
identical control flow to `api_get` (the two bodies differ only in the
HTTP verb and payload argument). -/
def api_post (responder : Nat → Response) (retries : Nat := 2)
    (backoff : ℚ := 5 / 4) : CallTrace :=
  apiLoop responder retries backoff 0 retries

/-! ## The top-level Streamlit flow

The script runs top to bottom: token check, shop verification, blueprint
listing, provider listing plus per-provider variant probes, variant
fetch, colour selection, then (on the button press) the per-file
upload / create-product / publish loop. Every `st.stop()` is a halt
state. UI widgets (selectboxes, multiselect, file uploader, button) are
inputs; label formatting and sorting of the blueprint selectbox only
permute the options shown and are abstracted into the choice index. -/

structure Shop where
  id : Nat
  title : String
deriving DecidableEq

structure Blueprint where
  id : Nat
  title : String
  brand : String
  model : String
deriving DecidableEq

structure Provider where
  id : Nat
  title : String
deriving DecidableEq

/-- One normalized catalog variant as built by `fetch_catalog_variants`:
id, size (from the title field), colour, availability. -/
structure Variant where
  id : Nat
  size : String
  color : String
  is_available : Bool
deriving DecidableEq

/-- One HTTP request as it appears on the wire: verb, path, and the
status the mocked responder answered with. -/
structure Req where
  method : String
  path : String
  status : Nat
deriving DecidableEq

/-- The requests performed by one traced call: attempts 0..n-1 against
one responder, all to the same path. -/
def callReqs (method path : String) (responder : Nat → Response)
    (t : CallTrace) : List Req :=
  (List.range t.attempts).map fun i =>
    { method := method, path := path, status := (responder i).status }

def providersPath (bpid : Nat) : String :=
  s!"/catalog/blueprints/{bpid}/print_providers.json"

def variantsPath (bpid pid : Nat) : String :=
  s!"/catalog/blueprints/{bpid}/print_providers/{pid}/variants.json"

def productsPath (shopId : Nat) : String := s!"/shops/{shopId}/products.json"

def publishPath (shopId : Nat) (productId : String) : String :=
  s!"/shops/{shopId}/products/{productId}/publish.json"

/-- A mocked vendor: a responder (attempt index to response) per logical
call site, plus the parsed payloads the script reads on success. -/
structure Env where
  shopsResp : Nat → Response
  shops : List Shop
  blueprintsResp : Nat → Response
  blueprints : List Blueprint
  providersResp : Nat → Response
  providers : List Provider
  probeResp : Nat → Nat → Response
  fetchResp : Nat → Response
  variantsData : List Variant
  uploadResp : Nat → Nat → Response
  uploadImageId : Nat → String
  createResp : Nat → Nat → Response
  createProductId : Nat → String
  publishResp : Nat → Nat → Response

/-- The user's interactive inputs for one run of the script. -/
structure UI where
  rawToken : List Char
  includeOos : Bool
  blueprintChoice : Nat
  providerChoice : Nat
  selectedColors : List String
  files : List String
  buttonPressed : Bool

/-- Per-file outcome of the upload-and-publish loop: success message,
caught `requests.HTTPError`, or the generic `except Exception` arm. -/
inductive ItemResult where
  | published (title : String)
  | httpFailed (status : Nat) (body : String)
  | otherFailed
deriving DecidableEq

/-- Where the script run ends: each `st.stop()` site, the batch results,
or idle (no files uploaded / button not pressed). `crashed` stands for
the unreachable case of a call returning `None` (retries = 0 never
happens in the script; `.json()` on `None` would be an uncaught
AttributeError). -/
inductive Halt where
  | needToken
  | crashed
  | shopsError
  | noShops
  | blueprintsError
  | providersError
  | noProviders
  | noWorkingProviders
  | variantsError
  | noColors
  | noColorsSelected
  | noVariantsChosen
  | idle
  | batchDone (results : List ItemResult)
deriving DecidableEq

def WANTED_SIZES : List String := ["S", "M", "L", "XL", "2XL", "3XL"]

def TITLE_SUFFIX : String := " - Auto Uploader"

/-- The stem `os.path.splitext(name)[0]`: everything before the last dot,
except that a name whose characters before the last dot are all dots is
returned whole. -/
def splitextBase (s : String) : String :=
  let r := s.data.reverse
  let ext := r.takeWhile (fun c => c != '.')
  if ext.length = r.length then s
  else
    let before := r.drop (ext.length + 1)
    if before.all (fun c => c == '.') then s else String.mk before.reverse

/-- Python string comparison: code-point lexicographic. -/
def lexLe : List Char → List Char → Bool
  | [], _ => true
  | _ :: _, [] => false
  | a :: as, b :: bs => if a = b then lexLe as bs else decide (a < b)

def strLe (a b : String) : Bool := lexLe a.data b.data

def insertSorted (x : String) : List String → List String
  | [] => [x]
  | y :: ys => if strLe x y then x :: y :: ys else y :: insertSorted x ys

/-- Stable ascending insertion sort, the order `sorted` produces. -/
def sortStr : List String → List String
  | [] => []
  | x :: xs => insertSorted x (sortStr xs)

/-- Python `sorted(set(xs))` on strings: deduplicate, then sort
ascending (only the underlying set matters, so the dedup order does
not). -/
def sortedDedup (l : List String) : List String :=
  sortStr l.dedup

/-- `probe_provider_variants` applied to each provider in order: keep
providers whose variant probe succeeds, skip those answering 404, and
propagate any other HTTP error (`raise`), which the enclosing `except`
turns into a stop; `none` marks that propagation. Requests made so far
are returned in both cases. -/
def probeAll (env : Env) (bpid : Nat) : List Provider → Option (List Provider) × List Req
  | [] => (some [], [])
  | p :: rest =>
    let t := api_get (env.probeResp p.id)
    let reqs := callReqs "GET" (variantsPath bpid p.id) (env.probeResp p.id) t
    match t.outcome with
    | .ok _ =>
      let (res, rs) := probeAll env bpid rest
      (res.map (fun w => p :: w), reqs ++ rs)
    | .raised 404 _ =>
      let (res, rs) := probeAll env bpid rest
      (res, reqs ++ rs)
    | .raised _ _ => (none, reqs)
    | .fellThrough => (none, reqs)

/-- The upload-and-publish loop body, file by file: upload the image,
create the product, publish it; a caught error on any of the three calls
is recorded for that file only and the loop continues with the next
file. -/
def batchLoop (env : Env) (shopId : Nat) : Nat → List String → List ItemResult × List Req
  | _, [] => ([], [])
  | idx, f :: rest =>
    let tUp := api_post (env.uploadResp idx)
    let rUp := callReqs "POST" "/uploads/images.json" (env.uploadResp idx) tUp
    match tUp.outcome with
    | .raised s b =>
      let (res, rs) := batchLoop env shopId (idx + 1) rest
      (.httpFailed s b :: res, rUp ++ rs)
    | .fellThrough =>
      let (res, rs) := batchLoop env shopId (idx + 1) rest
      (.otherFailed :: res, rUp ++ rs)
    | .ok _ =>
      let tCr := api_post (env.createResp idx)
      let rCr := callReqs "POST" (productsPath shopId) (env.createResp idx) tCr
      match tCr.outcome with
      | .raised s b =>
        let (res, rs) := batchLoop env shopId (idx + 1) rest
        (.httpFailed s b :: res, rUp ++ rCr ++ rs)
      | .fellThrough =>
        let (res, rs) := batchLoop env shopId (idx + 1) rest
        (.otherFailed :: res, rUp ++ rCr ++ rs)
      | .ok _ =>
        let productId := env.createProductId idx
        let tPub := api_post (env.publishResp idx)
        let rPub := callReqs "POST" (publishPath shopId productId) (env.publishResp idx) tPub
        match tPub.outcome with
        | .raised s b =>
          let (res, rs) := batchLoop env shopId (idx + 1) rest
          (.httpFailed s b :: res, rUp ++ rCr ++ rPub ++ rs)
        | .fellThrough =>
          let (res, rs) := batchLoop env shopId (idx + 1) rest
          (.otherFailed :: res, rUp ++ rCr ++ rPub ++ rs)
        | .ok _ =>
          let (res, rs) := batchLoop env shopId (idx + 1) rest
          (.published (splitextBase f) :: res, rUp ++ rCr ++ rPub ++ rs)

/-- The whole script, top to bottom. Returns where it halts and the full
list of HTTP requests performed, in order. -/
def runFlow (env : Env) (ui : UI) : Halt × List Req :=
  let api_token := clean_token ui.rawToken
  if api_token = [] then (.needToken, [])
  else
    let tShops := api_get env.shopsResp
    let rShops := callReqs "GET" "/shops.json" env.shopsResp tShops
    match tShops.outcome with
    | .raised _ _ => (.shopsError, rShops)
    | .fellThrough => (.crashed, rShops)
    | .ok _ =>
      if env.shops = [] then (.noShops, rShops)
      else
        let shopId := (env.shops.headD { id := 0, title := "" }).id
        let tBp := api_get env.blueprintsResp
        let rBp := callReqs "GET" "/catalog/blueprints.json" env.blueprintsResp tBp
        let acc1 := rShops ++ rBp
        match tBp.outcome with
        | .raised _ _ => (.blueprintsError, acc1)
        | .fellThrough => (.crashed, acc1)
        | .ok _ =>
          let bp := env.blueprints.getD ui.blueprintChoice
            { id := 0, title := "", brand := "", model := "" }
          let tProv := api_get env.providersResp
          let rProv := callReqs "GET" (providersPath bp.id) env.providersResp tProv
          let acc2 := acc1 ++ rProv
          match tProv.outcome with
          | .raised _ _ => (.providersError, acc2)
          | .fellThrough => (.crashed, acc2)
          | .ok _ =>
            if env.providers = [] then (.noProviders, acc2)
            else
              match probeAll env bp.id env.providers with
              | (none, rs) => (.providersError, acc2 ++ rs)
              | (some working, rs) =>
                let acc3 := acc2 ++ rs
                if working = [] then (.noWorkingProviders, acc3)
                else
                  let prov := working.getD ui.providerChoice { id := 0, title := "" }
                  let tVar := api_get env.fetchResp
                  let rVar := callReqs "GET" (variantsPath bp.id prov.id) env.fetchResp tVar
                  let acc4 := acc3 ++ rVar
                  match tVar.outcome with
                  | .raised _ _ => (.variantsError, acc4)
                  | .fellThrough => (.crashed, acc4)
                  | .ok _ =>
                    let catalog := env.variantsData.filter
                      (fun v => v.size != "" && v.color != "")
                    let availColors := sortedDedup ((catalog.filter (fun v =>
                      WANTED_SIZES.contains v.size &&
                        (ui.includeOos || v.is_available))).map (fun v => v.color))
                    if availColors = [] then (.noColors, acc4)
                    else if ui.selectedColors = [] then (.noColorsSelected, acc4)
                    else
                      let chosen := catalog.filter (fun v =>
                        WANTED_SIZES.contains v.size &&
                          ui.selectedColors.contains v.color && v.is_available)
                      if chosen = [] then (.noVariantsChosen, acc4)
                      else if ui.files ≠ [] ∧ ui.buttonPressed = true then
                        let (results, rBatch) := batchLoop env shopId 0 ui.files
                        (.batchDone results, acc4 ++ rBatch)
                      else (.idle, acc4)

/-! ## Property helpers and concrete scenarios -/

/-- True when neither end of the list is a quote character. -/
def endsQuoteFree (l : List Char) : Bool :=
  !(l.head?.any (fun a => a == dquote || a == squote)) &&
  !(l.getLast?.any (fun a => a == dquote || a == squote))

/-- The tail of the `clean_token` pipeline after the bearer-prefixed
seven characters have been dropped: strip whitespace, strip quotes,
remove whitespace and zero-width characters. -/
def afterBearer (r : List Char) : List Char :=
  ((stripChar squote (stripChar dquote (pyStrip r))).filter
    (fun c => !pyIsSpace c)).filter (fun c => !isZeroWidth c)

/-- A character different from the given one. -/
def flipChar (c : Char) : Char := if c = 'a' then 'b' else 'a'

/-- The final attempt's outcome is surfaced: at least one attempt was
made, and the call either returned the last response received (its
status below 400) or raised an error carrying that response's status and
body. `i` is the attempt index of the first request of the call. -/
def finalSurfaced (responder : Nat → Response) (i : Nat) (t : CallTrace) : Prop :=
  1 ≤ t.attempts ∧
  (((responder (i + t.attempts - 1)).status < 400 ∧
      t.outcome = .ok (responder (i + t.attempts - 1))) ∨
   (400 ≤ (responder (i + t.attempts - 1)).status ∧
      t.outcome = .raised (responder (i + t.attempts - 1)).status
        (responder (i + t.attempts - 1)).body))

/-- How many files of a batch were published. -/
def countPublished : Halt → Nat
  | .batchDone rs => rs.countP (fun r => match r with | .published _ => true | _ => false)
  | _ => 0

/-- A responder that rate-limits the first two attempts and succeeds on
the third. -/
def responder429x2 : Nat → Response := fun i =>
  if i < 2 then { status := 429, body := "rate limited" } else { status := 200, body := "ok" }

/-- A responder that always answers HTTP 500. -/
def responder500 : Nat → Response := fun _ => { status := 500, body := "server error" }

def ok200 : Response := { status := 200, body := "ok" }

/-- Mocked vendor for the batch scenario: everything succeeds except the
upload call of the second file (index 1), which answers HTTP 500. -/
def envC9 : Env := {
  shopsResp := fun _ => ok200
  shops := [{ id := 1, title := "Shop" }]
  blueprintsResp := fun _ => ok200
  blueprints := [{ id := 3, title := "Tee", brand := "Gildan", model := "64000" }]
  providersResp := fun _ => ok200
  providers := [{ id := 29, title := "Monster Digital" }]
  probeResp := fun _ _ => ok200
  fetchResp := fun _ => ok200
  variantsData := [{ id := 101, size := "M", color := "Black", is_available := true }]
  uploadResp := fun idx _ => if idx = 1 then { status := 500, body := "boom" } else ok200
  uploadImageId := fun idx => s!"img{idx}"
  createResp := fun _ _ => ok200
  createProductId := fun idx => s!"p{idx}"
  publishResp := fun _ _ => ok200 }

/-- UI inputs for the batch scenario: a valid token, the single
blueprint/provider, the one colour, three uploaded files, button
pressed. -/
def uiC9 : UI := {
  rawToken := "tok".toList
  includeOos := false
  blueprintChoice := 0
  providerChoice := 0
  selectedColors := ["Black"]
  files := ["a.png", "b.png", "c.png"]
  buttonPressed := true }

/-- The same vendor but with `/shops.json` answering HTTP 401. -/
def envC8 : Env := { envC9 with shopsResp := fun _ => { status := 401, body := "unauth" } }

/-! ## Helper lemmas about the normalizer -/

lemma dropWhile_eq_self_of_head (p : Char → Bool) (l : List Char)
    (h : ∀ a, l.head? = some a → p a = false) : l.dropWhile p = l := by
  cases l with
  | nil => rfl
  | cons a t => exact List.dropWhile_cons_of_neg (by simp [h a rfl])

lemma pyStripWith_eq_self (p : Char → Bool) (l : List Char)
    (hh : ∀ a, l.head? = some a → p a = false)
    (hl : ∀ a, l.getLast? = some a → p a = false) :
    pyStripWith p l = l := by
  unfold pyStripWith pyLstrip pyRstrip
  rw [dropWhile_eq_self_of_head p l hh,
    dropWhile_eq_self_of_head p l.reverse
      (fun a ha => hl a (by rwa [List.head?_reverse] at ha)),
    List.reverse_reverse]

lemma clean_token_no_space (x : List Char) :
    ∀ c ∈ clean_token x, pyIsSpace c = false ∧ isZeroWidth c = false := by
  intro c hc
  unfold clean_token at hc
  split at hc
  · simp at hc
  · simp only [List.mem_filter] at hc
    obtain ⟨⟨_, h1⟩, h2⟩ := hc
    exact ⟨by simpa using h1, by simpa using h2⟩

lemma pyLower_eq_space {c : Char} (h : pyLower c = ' ') : c = ' ' := by
  unfold pyLower at h
  split at h
  · exfalso
    rename_i hc
    obtain ⟨h1, h2⟩ := hc
    generalize hg : c.toNat = n at h1 h2 h
    interval_cases n <;> exact absurd h (by decide)
  · exact h

lemma not_bearer_of_no_space (o : List Char)
    (hs : ∀ c ∈ o, pyIsSpace c = false) :
    ¬ (o.map pyLower).take 7 = bearerLower := by
  intro h
  have h6 : ((o.map pyLower).take 7)[6]? = bearerLower[6]? := by rw [h]
  have hb : bearerLower[6]? = some ' ' := by decide
  rw [hb, List.getElem?_take, if_pos (by omega), List.getElem?_map] at h6
  cases ho : o[6]? with
  | none => rw [ho] at h6; simp at h6
  | some c =>
    rw [ho] at h6
    simp only [Option.map_some'] at h6
    have hc : c = ' ' := pyLower_eq_space (Option.some.inj h6)
    have hmem : c ∈ o := List.getElem?_mem ho
    have := hs c hmem
    rw [hc] at this
    exact absurd this (by decide)

lemma head_not_of_any_false {f : Char → Bool} {x : Option Char}
    (h : x.any f = false) : ∀ a, x = some a → f a = false := by
  intro a ha
  rw [ha, Option.any_some] at h
  exact h

lemma endsQuoteFree_parts {o : List Char} (hq : endsQuoteFree o = true) :
    (∀ a, o.head? = some a → (a == dquote) = false ∧ (a == squote) = false) ∧
    (∀ a, o.getLast? = some a → (a == dquote) = false ∧ (a == squote) = false) := by
  unfold endsQuoteFree at hq
  rw [Bool.and_eq_true, Bool.not_eq_true', Bool.not_eq_true'] at hq
  exact ⟨fun a ha => Bool.or_eq_false_iff.mp (head_not_of_any_false hq.1 a ha),
    fun a ha => Bool.or_eq_false_iff.mp (head_not_of_any_false hq.2 a ha)⟩

lemma clean_token_fixed (o : List Char)
    (hs : ∀ c ∈ o, pyIsSpace c = false ∧ isZeroWidth c = false)
    (hq : endsQuoteFree o = true) :
    clean_token o = o := by
  by_cases ho : o = []
  · rw [ho]; rfl
  · have hs1 : ∀ c ∈ o, pyIsSpace c = false := fun c hc => (hs c hc).1
    have hstrip : pyStrip o = o :=
      pyStripWith_eq_self _ _
        (fun a ha => hs1 a (List.mem_of_mem_head? (by rw [ha]; rfl)))
        (fun a ha => hs1 a (List.mem_reverse.mp
          (List.mem_of_mem_head? (by rw [List.head?_reverse, ha]; rfl))))
    obtain ⟨hqh, hql⟩ := endsQuoteFree_parts hq
    have hd : stripChar dquote o = o :=
      pyStripWith_eq_self _ _ (fun a ha => (hqh a ha).1) (fun a ha => (hql a ha).1)
    have hsq : stripChar squote o = o :=
      pyStripWith_eq_self _ _ (fun a ha => (hqh a ha).2) (fun a ha => (hql a ha).2)
    have hf1 : o.filter (fun c => !pyIsSpace c) = o :=
      List.filter_eq_self.mpr (fun c hc => by simp [(hs c hc).1])
    have hf2 : o.filter (fun c => !isZeroWidth c) = o :=
      List.filter_eq_self.mpr (fun c hc => by simp [(hs c hc).2])
    unfold clean_token
    rw [if_neg ho]
    simp only [hstrip, if_neg (not_bearer_of_no_space o hs1), hd, hsq, hf1, hf2]

/-! ## Claims about the normalizer -/

/-- C3 counterexample: the claim says `clean_token` is idempotent for
every string, but a token wrapped in nested quotes (single around
double) refutes it: one pass strips the single quotes, the second pass
strips the now-exposed double quotes. -/
theorem c3_idempotent_cex :
    clean_token (clean_token [squote, dquote, 'a', dquote, squote]) ≠
      clean_token [squote, dquote, 'a', dquote, squote] := by decide

/-- C3 amended: `clean_token` is idempotent on every input whose cleaned
value does not begin or end with a quote character (a second application
strips further quote layers otherwise). -/
theorem c3_idempotent (x : List Char)
    (hq : endsQuoteFree (clean_token x) = true) :
    clean_token (clean_token x) = clean_token x :=
  clean_token_fixed (clean_token x) (clean_token_no_space x) hq

/-- C3 witness: a concrete clean input where idempotence holds. -/
theorem c3_idempotent_witness :
    clean_token (clean_token "  Bearer my-tok-42  ".toList) =
      clean_token "  Bearer my-tok-42  ".toList :=
  c3_idempotent "  Bearer my-tok-42  ".toList (by decide)

/-- C10: the normalized token contains no whitespace character (the
regex whitespace class) and none of the four zero-width characters, so
it can be spliced into an Authorization header value. -/
theorem c10_no_whitespace (x : List Char) :
    (clean_token x).all (fun c => !pyIsSpace c && !isZeroWidth c) = true := by
  rw [List.all_eq_true]
  intro c hc
  obtain ⟨h1, h2⟩ := clean_token_no_space x c hc
  simp [h1, h2]

lemma not_bearer_of_head_ne (t : List Char) (a : Char) (ht : t.head? = some a)
    (ha : pyLower a ≠ 'b') : ¬ (t.map pyLower).take 7 = bearerLower := by
  intro h
  cases t with
  | nil => simp at ht
  | cons x xs =>
    rw [List.head?_cons] at ht
    have hx : x = a := Option.some.inj ht
    have hb : List.head? bearerLower = some 'b' := by decide
    have h0 := congrArg List.head? h
    rw [hb] at h0
    rw [List.map_cons] at h0
    have h7 : (pyLower x :: (xs.map pyLower)).take 7 =
        pyLower x :: (xs.map pyLower).take 6 := rfl
    rw [h7, List.head?_cons] at h0
    exact ha (hx ▸ Option.some.inj h0)

lemma stripChar_eq_self (q : Char) (l : List Char)
    (hh : ∀ a, l.head? = some a → (a == q) = false)
    (hl : ∀ a, l.getLast? = some a → (a == q) = false) :
    stripChar q l = l :=
  pyStripWith_eq_self _ _ hh hl

lemma stripChar_wrap (q : Char) (m : List Char) (hne : m ≠ [])
    (hh : ∀ a, m.head? = some a → (a == q) = false)
    (hl : ∀ a, m.getLast? = some a → (a == q) = false) :
    stripChar q (q :: m ++ [q]) = m := by
  unfold stripChar pyStripWith pyLstrip pyRstrip
  rw [List.cons_append, List.dropWhile_cons_of_pos (by simp)]
  rw [dropWhile_eq_self_of_head (fun c => c == q) (m ++ [q])
      (fun a ha => hh a (by rwa [List.head?_append_of_ne_nil m hne] at ha))]
  rw [List.reverse_append]
  simp only [List.reverse_cons, List.reverse_nil, List.nil_append, List.singleton_append]
  rw [List.dropWhile_cons_of_pos (by simp)]
  rw [dropWhile_eq_self_of_head (fun c => c == q) m.reverse
      (fun a ha => hl a (by rwa [List.head?_reverse] at ha))]
  exact List.reverse_reverse m

lemma wrapped_strip_self (q : Char) (m : List Char) (hsp : pyIsSpace q = false) :
    pyStrip (q :: m ++ [q]) = q :: m ++ [q] := by
  apply pyStripWith_eq_self
  · intro a ha
    rw [List.cons_append, List.head?_cons] at ha
    rwa [← Option.some.inj ha]
  · intro a ha
    rw [List.getLast?_concat] at ha
    rwa [← Option.some.inj ha]

lemma clean_token_wrapped (q : Char) (m : List Char) (hne : m ≠ [])
    (hq : endsQuoteFree m = true) (hqq : q = dquote ∨ q = squote) :
    clean_token (q :: m ++ [q]) =
      (m.filter (fun c => !pyIsSpace c)).filter (fun c => !isZeroWidth c) := by
  have hsp : pyIsSpace q = false := by rcases hqq with h | h <;> rw [h] <;> decide
  have hlow : pyLower q ≠ 'b' := by rcases hqq with h | h <;> rw [h] <;> decide
  obtain ⟨hqh, hql⟩ := endsQuoteFree_parts hq
  have hstrip := wrapped_strip_self q m hsp
  have hhead : (q :: m ++ [q]).head? = some q := by rw [List.cons_append, List.head?_cons]
  have hbear := not_bearer_of_head_ne (q :: m ++ [q]) q hhead hlow
  have hquotes : stripChar squote (stripChar dquote (q :: m ++ [q])) = m := by
    rcases hqq with h | h
    · subst h
      rw [stripChar_wrap dquote m hne (fun a ha => (hqh a ha).1)
          (fun a ha => (hql a ha).1)]
      exact pyStripWith_eq_self _ _ (fun a ha => (hqh a ha).2) (fun a ha => (hql a ha).2)
    · subst h
      rw [stripChar_eq_self dquote (squote :: m ++ [squote])
          (fun a ha => by rw [List.cons_append, List.head?_cons] at ha
                          rw [← Option.some.inj ha]; decide)
          (fun a ha => by rw [List.getLast?_concat] at ha
                          rw [← Option.some.inj ha]; decide)]
      exact stripChar_wrap squote m hne (fun a ha => (hqh a ha).2)
        (fun a ha => (hql a ha).2)
  unfold clean_token
  rw [if_neg (by simp)]
  simp only [hstrip, if_neg hbear, hquotes]

/-- C4 counterexample: the claim says at most one leading and one
trailing quote character are removed, but Python's `strip` removes ALL
of them: a doubly double-quoted letter comes out bare instead of keeping
one quote layer. -/
theorem c4_one_layer_cex :
    clean_token [dquote, dquote, 'a', dquote, dquote] = ['a'] ∧
    clean_token [dquote, dquote, 'a', dquote, dquote] ≠ [dquote, 'a', dquote] := by
  decide

/-- C4 amended: for an input wrapped in one layer of matching single or
double quotes whose interior does not itself begin or end with a quote
character, `clean_token` removes exactly that one layer (followed by the
whitespace and zero-width removal of the interior); when the interior
does begin or end with quote characters, ALL leading and trailing quote
characters are stripped (double quotes first, then single quotes),
matching or not. -/
theorem c4_one_layer (m : List Char) (hne : m ≠ []) (hq : endsQuoteFree m = true) :
    clean_token (dquote :: m ++ [dquote]) =
      (m.filter (fun c => !pyIsSpace c)).filter (fun c => !isZeroWidth c) ∧
    clean_token (squote :: m ++ [squote]) =
      (m.filter (fun c => !pyIsSpace c)).filter (fun c => !isZeroWidth c) :=
  ⟨clean_token_wrapped dquote m hne hq (Or.inl rfl),
   clean_token_wrapped squote m hne hq (Or.inr rfl)⟩

/-- C4 witness: a concrete quoted token loses exactly its quote layer. -/
theorem c4_one_layer_witness :
    clean_token (dquote :: "my tok".toList ++ [dquote]) =
      ("my tok".toList.filter (fun c => !pyIsSpace c)).filter
        (fun c => !isZeroWidth c) ∧
    clean_token (squote :: "my tok".toList ++ [squote]) =
      ("my tok".toList.filter (fun c => !pyIsSpace c)).filter
        (fun c => !isZeroWidth c) :=
  c4_one_layer "my tok".toList (by decide) (by decide)

/-- C5 counterexample: the claim says a bearer word followed by ANY
whitespace character is removed as a prefix, but the code only matches
the seven characters with a literal space: with a tab after the word the
prefix is kept (the tab is later deleted by the whitespace removal,
fusing the words). -/
theorem c5_bearer_tab_cex :
    clean_token ("Bearer\tabc").toList = "Bearerabc".toList ∧
    clean_token ("Bearer\tabc").toList ≠ "abc".toList := by decide

/-- C5 amended: exactly when the stripped input lowercases to the seven
characters of the bearer word plus one literal space, those seven
characters are dropped and the rest of the pipeline (whitespace strip,
quote strip, whitespace and zero-width removal) runs on the remainder. -/
theorem c5_bearer_space (s : List Char)
    (h : ((pyStrip s).map pyLower).take 7 = bearerLower) :
    clean_token s = afterBearer ((pyStrip s).drop 7) := by
  have hs : s ≠ [] := by
    intro h0
    rw [h0] at h
    exact absurd h (by decide)
  unfold clean_token
  rw [if_neg hs]
  simp only [if_pos h]
  rfl

/-- C5 witness: a concrete bearer-prefixed token. -/
theorem c5_bearer_space_witness :
    clean_token "Bearer my-tok".toList =
      afterBearer ((pyStrip "Bearer my-tok".toList).drop 7) :=
  c5_bearer_space "Bearer my-tok".toList (by decide)

/-! ## Claims about the mask -/

lemma flipChar_ne (c : Char) : flipChar c ≠ c := by
  unfold flipChar
  split
  · rename_i h; rw [h]; decide
  · rename_i h; exact fun hc => h hc.symm

lemma set_middle_ne {t : List Char} {p : Nat} (hp : p < t.length) :
    t.set p (flipChar (t.getD p 'a')) ≠ t := by
  intro heq
  have h1 : (t.set p (flipChar (t.getD p 'a')))[p]? = some (flipChar (t.getD p 'a')) :=
    List.getElem?_set_self hp
  rw [heq] at h1
  have h2 : t[p]? = some (t.getD p 'a') := by
    rw [List.getD_eq_getElem t 'a' hp]
    exact List.getElem?_eq_getElem hp
  rw [h2] at h1
  exact flipChar_ne (t.getD p 'a') (Option.some.inj h1).symm

lemma mask_token_set_middle {t : List Char} {p k : Nat} (hk : 0 < k)
    (hpk : p = k) (hmid : k < t.length - k) :
    (t.set p (flipChar (t.getD p 'a'))).take k = t.take k ∧
    (t.set p (flipChar (t.getD p 'a'))).drop (t.length - k) = t.drop (t.length - k) := by
  subst hpk
  constructor
  · rw [List.set_take]
    apply List.set_eq_of_length_le
    rw [List.length_take]
    exact le_trans (min_le_left _ _) (le_refl _)
  · rw [List.drop_set, if_pos hmid]

/-- C6 counterexample: the claim says no nonempty token has all its
characters inside the preview and in particular the preview never
contains the whole token; for the two-character token the preview
contains the token itself verbatim. -/
theorem c6_short_token_cex :
    mask_token ['a', 'b'] = "ab".toList ++ hellip :: ("ab".toList ++ lenAnn 2) ∧
    List.IsInfix ['a', 'b'] (mask_token ['a', 'b']) ∧
    (['a', 'b']).all (fun c => (mask_token ['a', 'b']).contains c) = true := by
  refine ⟨by decide, ?_, by decide⟩
  exact ⟨[], hellip :: ("ab".toList ++ lenAnn 2), by decide⟩

/-- C6 amended: the preview hides the middle of the token: for every
token of length at least 5 some other token produces the identical
preview, so the preview does not reveal the secret; tokens of length at
most 4, however, appear in their preview in full. -/
theorem c6_hidden_middle (t : List Char) (h : 5 ≤ t.length) :
    ∃ u, u ≠ t ∧ mask_token u = mask_token t := by
  by_cases h12 : 12 < t.length
  · refine ⟨t.set 6 (flipChar (t.getD 6 'a')), set_middle_ne (by omega), ?_⟩
    obtain ⟨htake, hdrop⟩ := mask_token_set_middle (t := t) (p := 6) (k := 6)
      (by omega) rfl (by omega)
    have hlen : (t.set 6 (flipChar (t.getD 6 'a'))).length = t.length :=
      List.length_set ..
    unfold mask_token
    rw [if_neg (List.ne_nil_of_length_pos (by omega)),
      if_neg (List.ne_nil_of_length_pos (by omega)),
      if_pos (by omega : 12 < (t.set 6 (flipChar (t.getD 6 'a'))).length),
      if_pos h12, hlen, htake, hdrop]
  · refine ⟨t.set 2 (flipChar (t.getD 2 'a')), set_middle_ne (by omega), ?_⟩
    obtain ⟨htake, hdrop⟩ := mask_token_set_middle (t := t) (p := 2) (k := 2)
      (by omega) rfl (by omega)
    have hlen : (t.set 2 (flipChar (t.getD 2 'a'))).length = t.length :=
      List.length_set ..
    unfold mask_token
    rw [if_neg (List.ne_nil_of_length_pos (by omega)),
      if_neg (List.ne_nil_of_length_pos (by omega)),
      if_neg (by omega : ¬ 12 < (t.set 2 (flipChar (t.getD 2 'a'))).length),
      if_neg h12, hlen, htake, hdrop]

/-- C6 witness: a concrete five-character token whose preview another
token shares. -/
theorem c6_hidden_middle_witness :
    ∃ u, u ≠ "abcde".toList ∧ mask_token u = mask_token "abcde".toList :=
  c6_hidden_middle "abcde".toList (by decide)

/-- C7 counterexample: the claim says the numeric length is always
included, but the empty token is masked to the empty string, which
contains no length marker (and no head/tail preview). -/
theorem c7_empty_token_cex :
    mask_token [] = [] ∧
    mask_token [] ≠
      ([] : List Char).take 2 ++ hellip ::
        (([] : List Char).drop (([] : List Char).length - 2) ++ lenAnn 0) := by
  decide

/-- C7 amended: for every NONEMPTY token, the mask shows the first 2 and
last 2 characters when the length is at most 12, the first 6 and last 6
when longer than 12, and always contains the decimal length. -/
theorem c7_mask_shape (t : List Char) (h : t ≠ []) :
    (t.length ≤ 12 → mask_token t =
      t.take 2 ++ hellip :: (t.drop (t.length - 2) ++ lenAnn t.length)) ∧
    (12 < t.length → mask_token t =
      t.take 6 ++ hellip :: (t.drop (t.length - 6) ++ lenAnn t.length)) ∧
    List.IsInfix (Nat.repr t.length).toList (mask_token t) := by
  refine ⟨?_, ?_, ?_⟩
  · intro h12
    unfold mask_token
    rw [if_neg h, if_neg (by omega)]
  · intro h12
    unfold mask_token
    rw [if_neg h, if_pos h12]
  · have hran : List.IsInfix (Nat.repr t.length).toList (lenAnn t.length) :=
      ⟨" (len=".toList, [')'], rfl⟩
    by_cases h12 : 12 < t.length
    · refine hran.trans ?_
      apply List.IsSuffix.isInfix
      refine ⟨t.take 6 ++ hellip :: t.drop (t.length - 6), ?_⟩
      unfold mask_token
      rw [if_neg h, if_pos h12]
      simp [List.append_assoc]
    · refine hran.trans ?_
      apply List.IsSuffix.isInfix
      refine ⟨t.take 2 ++ hellip :: t.drop (t.length - 2), ?_⟩
      unfold mask_token
      rw [if_neg h, if_neg h12]
      simp [List.append_assoc]

/-- C7 witness: a concrete short and a concrete long token. -/
theorem c7_mask_shape_witness :
    (("abc".toList.length ≤ 12 → mask_token "abc".toList =
      "abc".toList.take 2 ++ hellip ::
        ("abc".toList.drop ("abc".toList.length - 2) ++ lenAnn "abc".toList.length)) ∧
    (12 < "abc".toList.length → mask_token "abc".toList =
      "abc".toList.take 6 ++ hellip ::
        ("abc".toList.drop ("abc".toList.length - 6) ++ lenAnn "abc".toList.length)) ∧
    List.IsInfix (Nat.repr "abc".toList.length).toList (mask_token "abc".toList)) :=
  c7_mask_shape "abc".toList (by decide)

/-! ## Claims about the HTTP caller -/

/-- C1 counterexample: with the DEFAULT retry count (retries = 2), a
responder answering 429, 429, 200 is attempted only twice: the call
sleeps once and raises the 429 error; no third attempt is made and the
200 is never seen. -/
theorem c1_default_retries_cex :
    (api_get responder429x2).attempts = 2 ∧
    (api_get responder429x2).outcome = .raised 429 "rate limited" ∧
    (api_get responder429x2).sleeps = [5 / 4] ∧
    (api_post responder429x2).attempts = 2 ∧
    (api_post responder429x2).outcome = .raised 429 "rate limited" := by
  refine ⟨by decide, by decide, ?_, by decide, by decide⟩
  simp [api_get, apiLoop, responder429x2]

/-- C1 amended: with retry count 3 (not the default 2), one call against
the 429-429-200 responder performs three attempts, returns the 200
response, and sleeps exactly twice before the second and third attempts,
the second sleep (backoff times 2) strictly longer than the first
(backoff times 1). -/
theorem c1_three_retries :
    (api_get responder429x2 3).attempts = 3 ∧
    (api_get responder429x2 3).outcome = .ok { status := 200, body := "ok" } ∧
    (api_get responder429x2 3).sleeps = [5 / 4, 5 / 2] ∧
    (5 / 4 : ℚ) < 5 / 2 ∧
    api_post responder429x2 3 = api_get responder429x2 3 := by
  refine ⟨by decide, by decide, ?_, by norm_num, rfl⟩
  norm_num [api_get, apiLoop, responder429x2]

lemma apiLoop_sound (responder : Nat → Response) (retries : Nat) (backoff : ℚ)
    (hs : ∀ j, j < retries → (responder j).status < 600) :
    ∀ fuel i, i + fuel = retries → 1 ≤ fuel →
      (apiLoop responder retries backoff i fuel).attempts ≤ fuel ∧
      finalSurfaced responder i (apiLoop responder retries backoff i fuel) := by
  intro fuel
  induction fuel with
  | zero => intro i _ h1; exact absurd h1 (by omega)
  | succ f ih =>
    intro i hif _
    simp only [apiLoop]
    by_cases hc : (responder i).status = 429 ∧ i < retries - 1
    · rw [if_pos hc]
      have hf : 1 ≤ f := by omega
      have ih' := ih (i + 1) (by omega) hf
      set rest := apiLoop responder retries backoff (i + 1) f with hrest
      refine ⟨Nat.succ_le_succ ih'.1, Nat.succ_le_succ (Nat.zero_le _), ?_⟩
      show ((responder (i + (rest.attempts + 1) - 1)).status < 400 ∧
          rest.outcome = .ok (responder (i + (rest.attempts + 1) - 1))) ∨
        (400 ≤ (responder (i + (rest.attempts + 1) - 1)).status ∧
          rest.outcome = .raised (responder (i + (rest.attempts + 1) - 1)).status
            (responder (i + (rest.attempts + 1) - 1)).body)
      have hidx : i + (rest.attempts + 1) - 1 = (i + 1) + rest.attempts - 1 := by omega
      rw [hidx]
      exact ih'.2.2
    · rw [if_neg hc]
      by_cases he : 400 ≤ (responder i).status ∧ (responder i).status < 600
      · rw [if_pos he]
        refine ⟨Nat.succ_le_succ (Nat.zero_le f), Nat.le_refl 1, ?_⟩
        show ((responder (i + 1 - 1)).status < 400 ∧
            Outcome.raised (responder i).status (responder i).body =
              .ok (responder (i + 1 - 1))) ∨
          (400 ≤ (responder (i + 1 - 1)).status ∧
            Outcome.raised (responder i).status (responder i).body =
              .raised (responder (i + 1 - 1)).status (responder (i + 1 - 1)).body)
        have hidx : i + 1 - 1 = i := by omega
        rw [hidx]
        exact Or.inr ⟨he.1, rfl⟩
      · rw [if_neg he]
        have h600 := hs i (by omega)
        have hlt : (responder i).status < 400 := by omega
        refine ⟨Nat.succ_le_succ (Nat.zero_le f), Nat.le_refl 1, ?_⟩
        show ((responder (i + 1 - 1)).status < 400 ∧
            Outcome.ok (responder i) = .ok (responder (i + 1 - 1))) ∨
          (400 ≤ (responder (i + 1 - 1)).status ∧
            Outcome.ok (responder i) =
              .raised (responder (i + 1 - 1)).status (responder (i + 1 - 1)).body)
        have hidx : i + 1 - 1 = i := by omega
        rw [hidx]
        exact Or.inl ⟨hlt, rfl⟩

/-- C2 counterexample: with retry count 0 the loop body never runs and
the call returns None — neither a response nor a raised error; and a
status of 600 (outside the 400-599 range `raise_for_status` treats as an
error) is RETURNED even though it is not below 400. -/
theorem c2_surfacing_cex :
    api_get (fun _ => { status := 429, body := "x" }) 0 =
      { outcome := .fellThrough, attempts := 0, sleeps := [] } ∧
    api_get (fun _ => { status := 600, body := "x" }) 1 =
      { outcome := .ok { status := 600, body := "x" }, attempts := 1, sleeps := [] } := by
  decide

/-- C2 amended: for every retry count R at least 1 and every responder
whose statuses are below 600, one call to api_get or api_post issues at
most R requests (and at least one), and the final attempt's outcome is
surfaced: the final response is returned when its status is below 400,
and an error carrying the final status and body is raised otherwise. -/
theorem c2_surfacing (responder : Nat → Response) (retries : Nat) (backoff : ℚ)
    (h1 : 1 ≤ retries) (hs : ∀ j, j < retries → (responder j).status < 600) :
    (api_get responder retries backoff).attempts ≤ retries ∧
    finalSurfaced responder 0 (api_get responder retries backoff) ∧
    (api_post responder retries backoff).attempts ≤ retries ∧
    finalSurfaced responder 0 (api_post responder retries backoff) := by
  have h := apiLoop_sound responder retries backoff hs retries 0 (by omega) h1
  exact ⟨h.1, h.2, h.1, h.2⟩

/-- C2 witness: the always-500 responder with the default retry count. -/
theorem c2_surfacing_witness :
    (api_get responder500 2 (5 / 4)).attempts ≤ 2 ∧
    finalSurfaced responder500 0 (api_get responder500 2 (5 / 4)) ∧
    (api_post responder500 2 (5 / 4)).attempts ≤ 2 ∧
    finalSurfaced responder500 0 (api_post responder500 2 (5 / 4)) :=
  c2_surfacing responder500 2 (5 / 4) (by decide) (by decide)

/-! ## Claims about the top-level flow -/

/-- C8: whenever the first `/shops.json` attempt answers HTTP 401 (and a
token was supplied), the whole flow halts at the shop-verification step:
exactly one HTTP request is ever made — no retry of the 401 and no
blueprint, provider, variant, upload, create or publish call. -/
theorem c8_halt_on_401 (env : Env) (ui : UI)
    (htok : clean_token ui.rawToken ≠ [])
    (h401 : (env.shopsResp 0).status = 401) :
    runFlow env ui =
      (.shopsError, [{ method := "GET", path := "/shops.json", status := 401 }]) := by
  have hcall : api_get env.shopsResp =
      { outcome := .raised 401 (env.shopsResp 0).body, attempts := 1, sleeps := [] } := by
    simp [api_get, apiLoop, h401]
  unfold runFlow
  rw [if_neg htok]
  simp only [hcall, callReqs]
  simp [List.range_succ, h401]

/-- C8 witness: the concrete 401 vendor halts after one request. -/
theorem c8_halt_on_401_witness :
    runFlow envC8 uiC9 =
      (.shopsError, [{ method := "GET", path := "/shops.json", status := 401 }]) :=
  c8_halt_on_401 envC8 uiC9 (by decide) rfl

/-- C9: in the batch of three files where the second upload answers HTTP
500 and everything else succeeds, the first and third files complete the
full upload, create-product and publish sequence, the second file's
error is recorded for that item only, and exactly 2 publishes succeed
(12 requests in all: 5 during setup, 3 for each succeeding file, 1 for
the failing upload). -/
theorem c9_batch_partial_failure :
    (runFlow envC9 uiC9).1 = .batchDone
      [.published "a", .httpFailed 500 "boom", .published "c"] ∧
    countPublished (runFlow envC9 uiC9).1 = 2 ∧
    (runFlow envC9 uiC9).2.length = 12 := by
  decide

end DesignUpload
